import Mathlib

/-!
Verification of the systemd service controller
(`service/systemd/service.go`): a shallow embedding of the service
lifecycle operations (`ListServices`, `Installed`, `Exists`, `Running`,
`Start`, `Stop`, `StopAndRemove`, `Remove`, `Install`, `UpdateConfig`)
together with theorems about idempotence, reconciliation ordering,
error handling and suffix filtering.

Strings are embedded as `List Char` (Go byte strings).  The external
collaborators (the D-Bus backend and the filesystem primitives held in
the package-level function variables `newConn`, `mkdirAll`,
`createFile`, `removeAll`) are modelled by an environment `Env`
recording the outcome each call would produce; every operation returns
its Go result together with the trace of collaborator calls it issued,
in order.
-/

namespace Systemd

/-- Go strings, embedded as lists of characters. -/
abbrev GoStr := List Char

/-- Embeds Go `strings.HasSuffix`: true iff the suffix is no longer than
the string and the final characters equal the suffix. -/
def hasSuffix (s suffix : GoStr) : Bool :=
  suffix.length ≤ s.length && s.drop (s.length - suffix.length) == suffix

/-- Embeds Go `strings.TrimSuffix`: drops the suffix when present,
otherwise returns the string unchanged. -/
def trimSuffix (s suffix : GoStr) : GoStr :=
  if hasSuffix s suffix then s.take (s.length - suffix.length) else s

/-- The literal `".service"` used by `ListServices` and `NewService`. -/
def serviceSuffix : GoStr := ['.', 's', 'e', 'r', 'v', 'i', 'c', 'e']

/-- The literal `"done"`, the completion value `Start`/`Stop` accept. -/
def doneStr : GoStr := ['d', 'o', 'n', 'e']

/-- The literal `"loaded"` checked by `Running`. -/
def loadedStr : GoStr := ['l', 'o', 'a', 'd', 'e', 'd']

/-- The literal `"active"` checked by `Running`. -/
def activeStr : GoStr := ['a', 'c', 't', 'i', 'v', 'e']

/-- Embeds Go `path.Join` for the clean, non-empty paths the controller
builds: parent, separator, child. -/
def pathJoin (dir file : GoStr) : GoStr := dir ++ '/' :: file

/-- The literal `"exec-start.sh"`, the fixed script file name. -/
def execStartSh : GoStr := ['e', 'x', 'e', 'c', '-', 's', 't', 'a', 'r', 't', '.', 's', 'h']

/-- One entry of `conn.ListUnits()`: the fields of `dbus.UnitStatus`
the controller reads (`Name`, `LoadState`, `ActiveState`). -/
structure UnitStatus where
  name : GoStr
  loadState : GoStr
  activeState : GoStr
deriving DecidableEq, Repr

/-- Modelled from the spec: `common.Conf` is not under `src/`.  The
Configuration carries an executable command line (`execStart`), an
optional description, optional environment bindings, and an optional
inline script body that normalization materializes as a file. -/
structure Conf where
  desc : GoStr := []
  execStart : GoStr := []
  extraEnv : List (GoStr × GoStr) := []
  script : Option GoStr := none
deriving DecidableEq, Repr

/-- Modelled from the spec: `normalize` is not under `src/`.  If the
configuration carries an inline script body, replace the executable
reference with the given script path and hand the original bytes back
to the caller; otherwise pass the configuration through unchanged. -/
def normalize (conf : Conf) (scriptPath : GoStr) : Conf × Option GoStr :=
  match conf.script with
  | some body => ({ conf with execStart := scriptPath, script := none }, some body)
  | none => (conf, none)

/-- Errors surfaced by the controller; each constructor records the
failing collaborator call or check, and the service name where the Go
message names the service. -/
inductive Err where
  | connFailed
  | listUnitsFailed
  | readConfFailed
  | notFound (name : GoStr)
  | startRequestFailed
  | startFailed (name : GoStr)
  | stopRequestFailed
  | stopFailed (name : GoStr)
  | enableFailed
  | disableFailed
  | mkdirFailed
  | createFileFailed
  | validationFailed (name : GoStr)
  | annotatedRemoveOld (e : Err)
  | removeAllFailed
deriving DecidableEq, Repr

/-- Modelled from the spec: `validate` is not under `src/`.  Rejects a
configuration missing the required executable reference, or a name
violating the naming constraints (here: empty). -/
def validate (name : GoStr) (conf : Conf) : Except Err Unit :=
  if name = [] then .error (.validationFailed name)
  else if conf.execStart = [] then .error (.validationFailed name)
  else .ok ()

/-- Modelled from the spec: `serialize` is not under `src/`.  A
deterministic rendering of the configuration in the backend's
section-keyed key/value unit-file text form. -/
def serialize (unitName : GoStr) (conf : Conf) : GoStr :=
  ('[' :: unitName) ++ (']' :: '\n' :: conf.desc) ++ ('\n' :: conf.execStart) ++ ['\n']

/-- The `Service` struct: the embedded `common.Service` name and
(normalized) conf, plus `ConfName`, `UnitName`, `Dirname`, `Script`. -/
structure Service where
  name : GoStr
  conf : Conf
  confName : GoStr
  unitName : GoStr
  dirname : GoStr
  script : Option GoStr
deriving DecidableEq, Repr

/-- One collaborator call, as recorded in an operation's trace. -/
inductive Effect where
  | connect
  | closeConn
  | listUnits
  | getUnitProps (unit : GoStr)
  | startUnit (unit : GoStr)
  | stopUnit (unit : GoStr)
  | enableUnitFiles (files : List GoStr)
  | disableUnitFiles (files : List GoStr)
  | mkdirAll (dir : GoStr)
  | createFile (file : GoStr)
  | removeAll (dir : GoStr)
deriving DecidableEq, Repr

/-- Effects that mutate backend or filesystem state; connecting,
closing, listing and reading properties are pure observations. -/
def Effect.isMutation : Effect → Bool
  | .startUnit _ => true
  | .stopUnit _ => true
  | .enableUnitFiles _ => true
  | .disableUnitFiles _ => true
  | .mkdirAll _ => true
  | .createFile _ => true
  | .removeAll _ => true
  | _ => false

/-- Effects that tear an old unit down: the stop, disable and directory
removal performed by `Stop`/`Remove`. -/
def Effect.isTeardown : Effect → Bool
  | .stopUnit _ => true
  | .disableUnitFiles _ => true
  | .removeAll _ => true
  | _ => false

/-- Effects that write the new configuration: directory creation, file
writes and the backend enable performed by `writeConf`/`Install`. -/
def Effect.isInstallWrite : Effect → Bool
  | .mkdirAll _ => true
  | .createFile _ => true
  | .enableUnitFiles _ => true
  | _ => false

/-- The behavior of the external collaborators during one controller
operation.  Each `newConn` call site gets its own success flag; `units`
is the answer `conn.ListUnits()` would give (`none` = error);
`unitConf` models `getUnitOptions` plus `deserializeOptions` (not under
`src/`): the deserialized live configuration of a unit, `none` = error;
`startUnit`/`stopUnit` give `none` for a request error, else the value
delivered on the completion channel; the remaining flags give the
outcomes of enable, disable, `mkdirAll`, `createFile`, `removeAll`. -/
structure Env where
  connListOk : Bool := true
  connRunOk : Bool := true
  connReadOk : Bool := true
  connStartOk : Bool := true
  connStopOk : Bool := true
  connEnableOk : Bool := true
  connDisableOk : Bool := true
  units : Option (List UnitStatus) := some []
  unitConf : GoStr → Option Conf := fun _ => none
  startUnit : GoStr → Option GoStr := fun _ => some doneStr
  stopUnit : GoStr → Option GoStr := fun _ => some doneStr
  enableOk : Bool := true
  disableOk : Bool := true
  mkdirOk : Bool := true
  createFileOk : GoStr → Bool := fun _ => true
  removeAllOk : Bool := true

/-- Embeds `ListServices`: connect, list all units, keep those whose
name ends in `".service"` with the suffix stripped. -/
def ListServices (env : Env) : Except Err (List GoStr) × List Effect :=
  if env.connListOk = false then (.error .connFailed, [.connect])
  else
    match env.units with
    | none => (.error .listUnitsFailed, [.connect, .listUnits, .closeConn])
    | some us =>
        (.ok (us.filterMap fun u =>
          if hasSuffix u.name serviceSuffix then some (trimSuffix u.name serviceSuffix)
          else none),
         [.connect, .listUnits, .closeConn])

/-- Embeds `Service.Installed`: true iff `ListServices` succeeds and the
service name is among the listed names; any error yields `false`. -/
def Installed (env : Env) (s : Service) : Bool × List Effect :=
  match ListServices env with
  | (.error _, tr) => (false, tr)
  | (.ok names, tr) => (names.contains s.name, tr)

/-- Embeds `Service.readConf`: connect, fetch the unit's `Service`
properties and deserialize them (`getUnitOptions` and
`deserializeOptions` are not under `src/`; their composite outcome is
modelled from the spec by `env.unitConf`). -/
def readConf (env : Env) (s : Service) : Except Err Conf × List Effect :=
  if env.connReadOk = false then (.error .connFailed, [.connect])
  else
    match env.unitConf s.unitName with
    | none => (.error .readConfFailed, [.connect, .getUnitProps s.unitName, .closeConn])
    | some c => (.ok c, [.connect, .getUnitProps s.unitName, .closeConn])

/-- Embeds `Service.check`: read the live conf and compare it with the
desired conf by structural (deep) equality. -/
def check (env : Env) (s : Service) : Except Err Bool × List Effect :=
  match readConf env s with
  | (.error e, tr) => (.error e, tr)
  | (.ok c, tr) => (.ok (decide (s.conf = c)), tr)

/-- Embeds `Service.Exists`: the result of `check`, with any error
collapsed to `false`. -/
def Exists (env : Env) (s : Service) : Bool × List Effect :=
  match check env s with
  | (.error _, tr) => (false, tr)
  | (.ok same, tr) => (same, tr)

/-- Embeds `Service.Running`: list all units and report whether the
first entry named like this unit has load state `"loaded"` and active
state `"active"`; any error yields `false`. -/
def Running (env : Env) (s : Service) : Bool × List Effect :=
  if env.connRunOk = false then (false, [.connect])
  else
    match env.units with
    | none => (false, [.connect, .listUnits, .closeConn])
    | some us =>
        match us.find? (fun u => u.name == s.unitName) with
        | none => (false, [.connect, .listUnits, .closeConn])
        | some u =>
            (u.loadState == loadedStr && u.activeState == activeStr,
             [.connect, .listUnits, .closeConn])

/-- Embeds `Service.Start`: not-found if not installed, no-op if already
running, else connect, issue the start request and block on the
completion channel, succeeding only on `"done"`. -/
def Start (env : Env) (s : Service) : Except Err Unit × List Effect :=
  match Installed env s with
  | (false, tr1) => (.error (.notFound s.name), tr1)
  | (true, tr1) =>
    match Running env s with
    | (true, tr2) => (.ok (), tr1 ++ tr2)
    | (false, tr2) =>
      if env.connStartOk = false then (.error .connFailed, tr1 ++ tr2 ++ [.connect])
      else
        match env.startUnit s.unitName with
        | none =>
            (.error .startRequestFailed,
             tr1 ++ tr2 ++ [.connect, .startUnit s.unitName, .closeConn])
        | some status =>
            (if status = doneStr then .ok () else .error (.startFailed s.name),
             tr1 ++ tr2 ++ [.connect, .startUnit s.unitName, .closeConn])

/-- Embeds `Service.Stop`: no-op if not running, else connect, issue the
stop request and block on the completion channel, succeeding only on
`"done"`. -/
def Stop (env : Env) (s : Service) : Except Err Unit × List Effect :=
  match Running env s with
  | (false, tr) => (.ok (), tr)
  | (true, tr) =>
    if env.connStopOk = false then (.error .connFailed, tr ++ [.connect])
    else
      match env.stopUnit s.unitName with
      | none =>
          (.error .stopRequestFailed,
           tr ++ [.connect, .stopUnit s.unitName, .closeConn])
      | some status =>
          (if status = doneStr then .ok () else .error (.stopFailed s.name),
           tr ++ [.connect, .stopUnit s.unitName, .closeConn])

/-- Embeds `Service.Remove`: no-op if not installed, else connect,
disable the unit file with the backend, then recursively delete the
service directory. -/
def Remove (env : Env) (s : Service) : Except Err Unit × List Effect :=
  match Installed env s with
  | (false, tr1) => (.ok (), tr1)
  | (true, tr1) =>
    if env.connDisableOk = false then (.error .connFailed, tr1 ++ [.connect])
    else if env.disableOk = false then
      (.error .disableFailed, tr1 ++ [.connect, .disableUnitFiles [s.unitName], .closeConn])
    else if env.removeAllOk = false then
      (.error .removeAllFailed,
       tr1 ++ [.connect, .disableUnitFiles [s.unitName], .removeAll s.dirname, .closeConn])
    else
      (.ok (),
       tr1 ++ [.connect, .disableUnitFiles [s.unitName], .removeAll s.dirname, .closeConn])

/-- Embeds `Service.StopAndRemove`: `Stop` then `Remove`, the first
failure short-circuiting. -/
def StopAndRemove (env : Env) (s : Service) : Except Err Unit × List Effect :=
  match Stop env s with
  | (.error e, tr) => (.error e, tr)
  | (.ok _, tr) =>
    match Remove env s with
    | (r, tr2) => (r, tr ++ tr2)

/-- Embeds `Service.writeConf`: serialize the conf, create the service
directory, write the script file when one is carried (at the path the
normalized conf's `ExecStart` points to), then write the unit file. -/
def writeConf (env : Env) (s : Service) : Except Err GoStr × List Effect :=
  if env.mkdirOk = false then (.error .mkdirFailed, [.mkdirAll s.dirname])
  else
    let filename := pathJoin s.dirname s.confName
    match s.script with
    | some _ =>
      let scriptPath := s.conf.execStart
      if env.createFileOk scriptPath = false then
        (.error .createFileFailed, [.mkdirAll s.dirname, .createFile scriptPath])
      else if env.createFileOk filename = false then
        (.error .createFileFailed,
         [.mkdirAll s.dirname, .createFile scriptPath, .createFile filename])
      else
        (.ok filename, [.mkdirAll s.dirname, .createFile scriptPath, .createFile filename])
    | none =>
      if env.createFileOk filename = false then
        (.error .createFileFailed, [.mkdirAll s.dirname, .createFile filename])
      else
        (.ok filename, [.mkdirAll s.dirname, .createFile filename])

/-- The tail of `Service.Install` after any old unit has been dealt
with: write the conf files, connect and enable the unit file. -/
def installFinish (env : Env) (s : Service) : Except Err Unit × List Effect :=
  match writeConf env s with
  | (.error e, tr) => (.error e, tr)
  | (.ok filename, tr) =>
    if env.connEnableOk = false then (.error .connFailed, tr ++ [.connect])
    else if env.enableOk = false then
      (.error .enableFailed, tr ++ [.connect, .enableUnitFiles [filename], .closeConn])
    else
      (.ok (), tr ++ [.connect, .enableUnitFiles [filename], .closeConn])

/-- Embeds `Service.Install`: if installed and the live conf matches,
succeed with nothing further; if installed and it differs, stop and
remove the old unit first (a failure there aborts, annotated); then
write the configuration and enable the unit file. -/
def Install (env : Env) (s : Service) : Except Err Unit × List Effect :=
  match Installed env s with
  | (false, tr1) =>
    match installFinish env s with
    | (r, tr) => (r, tr1 ++ tr)
  | (true, tr1) =>
    match check env s with
    | (.error e, tr2) => (.error e, tr1 ++ tr2)
    | (.ok true, tr2) => (.ok (), tr1 ++ tr2)
    | (.ok false, tr2) =>
      match StopAndRemove env s with
      | (.error e, tr3) => (.error (.annotatedRemoveOld e), tr1 ++ tr2 ++ tr3)
      | (.ok _, tr3) =>
        match installFinish env s with
        | (r, tr) => (r, tr1 ++ tr2 ++ tr3 ++ tr)

/-- Embeds `Service.setConf`: normalize against the deterministic
script path under the service directory, validate, and on success
store the normalized conf and script bytes. -/
def setConf (s : Service) (conf : Conf) : Except Err Service :=
  let scriptPath := pathJoin s.dirname execStartSh
  let nc := normalize conf scriptPath
  match validate s.name nc.1 with
  | .error e => .error e
  | .ok _ => .ok { s with conf := nc.1, script := nc.2 }

/-- Embeds `Service.UpdateConfig`: call `setConf` and ignore any error
(the Go method has no return value); no collaborator is contacted, so
the trace is empty. -/
def UpdateConfig (s : Service) (conf : Conf) : Service × List Effect :=
  match setConf s conf with
  | .ok s2 => (s2, [])
  | .error _ => (s, [])

/-! Concrete fixtures: a sample service `"foo"` as in the spec's
concrete scenario, and sample worlds the backend can present. -/

/-- The sample service name `"foo"`. -/
def fooName : GoStr := ['f', 'o', 'o']

/-- The unit name `"foo.service"` derived from the service name. -/
def fooUnitName : GoStr := fooName ++ serviceSuffix

/-- A sample valid, already-normalized configuration. -/
def fooConf : Conf := { desc := ['F', 'o', 'o'], execStart := ['/', 'b', 'i', 'n', '/', 'f', 'o', 'o'] }

/-- A different valid configuration, for mismatch scenarios. -/
def barConf : Conf := { desc := ['B', 'a', 'r'], execStart := ['/', 'b', 'i', 'n', '/', 'b', 'a', 'r'] }

/-- An invalid configuration: no executable reference, no script. -/
def badConf : Conf := {}

/-- The sample service directory. -/
def fooDir : GoStr := ['/', 'd', '/', 'i', 'n', 'i', 't', '/', 'f', 'o', 'o']

/-- The sample service value for `"foo"` with desired conf `fooConf`. -/
def sFoo : Service :=
  { name := fooName, conf := fooConf, confName := fooUnitName,
    unitName := fooUnitName, dirname := fooDir, script := none }

/-- The live unit entry for `sFoo`, loaded and active. -/
def fooUnitActive : UnitStatus :=
  { name := fooUnitName, loadState := loadedStr, activeState := activeStr }

/-- The live unit entry for `sFoo`, loaded but inactive. -/
def fooUnitInactive : UnitStatus :=
  { name := fooUnitName, loadState := loadedStr,
    activeState := ['i', 'n', 'a', 'c', 't', 'i', 'v', 'e'] }

/-- A backend property table answering conf `c` for `sFoo`'s unit. -/
def fooConfMap (c : Conf) : GoStr → Option Conf :=
  fun u => if u = fooUnitName then some c else none

/-- World where `sFoo` is installed, active, and the live conf matches. -/
def envMatch : Env := { units := some [fooUnitActive], unitConf := fooConfMap fooConf }

/-- World with no unit listed, yet readable, matching live properties. -/
def envUnlisted : Env := { units := some [], unitConf := fooConfMap fooConf }

/-- World where `sFoo` is installed and active but the live conf differs. -/
def envMismatch : Env := { units := some [fooUnitActive], unitConf := fooConfMap barConf }

/-- World where `sFoo` is installed, inactive, and the start request
completes with `"failed"`. -/
def envStartFails : Env :=
  { units := some [fooUnitInactive], unitConf := fooConfMap fooConf,
    startUnit := fun _ => some ['f', 'a', 'i', 'l', 'e', 'd'] }

/-- World where `sFoo` is active and the stop request completes with
`"failed"`. -/
def envStopFails : Env :=
  { units := some [fooUnitActive], unitConf := fooConfMap fooConf,
    stopUnit := fun _ => some ['f', 'a', 'i', 'l', 'e', 'd'] }

/-- World where `sFoo` is installed, inactive, and the start request
completes with `"done"`. -/
def envStartDone : Env :=
  { units := some [fooUnitInactive], unitConf := fooConfMap fooConf }

/-- World where `sFoo` is installed, active, conf differs, and disabling
unit files fails. -/
def envDisableFails : Env :=
  { units := some [fooUnitActive], unitConf := fooConfMap barConf, disableOk := false }

/-- A mixed unit list: two `.service` units and a `.socket` unit. -/
def mixedUnits : List UnitStatus :=
  [ { name := fooUnitName, loadState := loadedStr, activeState := activeStr },
    { name := ['b', 'a', 'r', '.', 's', 'o', 'c', 'k', 'e', 't'],
      loadState := loadedStr, activeState := activeStr },
    { name := ['b', 'a', 'z'] ++ serviceSuffix, loadState := loadedStr,
      activeState := ['i', 'n', 'a', 'c', 't', 'i', 'v', 'e'] } ]

/-- World presenting the mixed unit list. -/
def envMixed : Env := { units := some mixedUnits }

/-- World whose every connection attempt fails. -/
def envDead : Env :=
  { connListOk := false, connRunOk := false, connReadOk := false,
    connStartOk := false, connStopOk := false, connEnableOk := false,
    connDisableOk := false }

/-- World where connections succeed but listing units fails. -/
def envListErr : Env := { units := none }

/-! Helper lemmas about the shapes of the operations' results. -/

theorem ListServices_trace (env : Env) :
    (ListServices env).2 = [.connect] ∨
    (ListServices env).2 = [.connect, .listUnits, .closeConn] := by
  unfold ListServices
  by_cases h : env.connListOk = false
  · simp [h]
  · cases hu : env.units <;> simp [h, hu]

theorem ListServices_trace_pure (env : Env) :
    ∀ e ∈ (ListServices env).2, e.isMutation = false := by
  intro e he
  rcases ListServices_trace env with h | h <;> rw [h] at he <;>
    fin_cases he <;> rfl

theorem Installed_snd (env : Env) (s : Service) :
    (Installed env s).2 = (ListServices env).2 := by
  unfold Installed
  rcases h : ListServices env with ⟨r, tr⟩
  cases r <;> simp [h]

theorem readConf_trace (env : Env) (s : Service) :
    (readConf env s).2 = [.connect] ∨
    (readConf env s).2 = [.connect, .getUnitProps s.unitName, .closeConn] := by
  unfold readConf
  by_cases h : env.connReadOk = false
  · simp [h]
  · cases hu : env.unitConf s.unitName <;> simp [h, hu]

theorem readConf_trace_pure (env : Env) (s : Service) :
    ∀ e ∈ (readConf env s).2, e.isMutation = false := by
  intro e he
  rcases readConf_trace env s with h | h <;> rw [h] at he <;>
    fin_cases he <;> rfl

theorem check_snd (env : Env) (s : Service) :
    (check env s).2 = (readConf env s).2 := by
  unfold check
  rcases h : readConf env s with ⟨r, tr⟩
  cases r <;> simp [h]

theorem Exists_fst_eq_true_iff (env : Env) (s : Service) :
    (Exists env s).1 = true ↔ (check env s).1 = .ok true := by
  unfold Exists
  rcases h : check env s with ⟨r, tr⟩
  cases r with
  | error e => simp [h]
  | ok b => cases b <;> simp [h]

/-- C1: when the service is already installed and the live unit matches
the desired configuration, `Install` returns success and its trace
contains no mutation — no file write, no backend enable, no stop and no
remove — so the world is untouched and `Exists` remains true. -/
theorem install_noop_when_matching (env : Env) (s : Service)
    (hinst : (Installed env s).1 = true) (hex : (Exists env s).1 = true) :
    (Install env s).1 = .ok () ∧
    (∀ e ∈ (Install env s).2, e.isMutation = false) ∧
    (Exists env s).1 = true := by
  have hchk : (check env s).1 = .ok true := (Exists_fst_eq_true_iff env s).1 hex
  rcases hI : Installed env s with ⟨b1, tr1⟩
  rcases hC : check env s with ⟨r2, tr2⟩
  rw [hI] at hinst
  rw [hC] at hchk
  simp only at hinst hchk
  subst hinst
  subst hchk
  have hfull : Install env s = (.ok (), tr1 ++ tr2) := by
    simp [Install, hI, hC]
  refine ⟨by rw [hfull], ?_, hex⟩
  intro e he
  rw [hfull] at he
  simp only [List.mem_append] at he
  rcases he with he | he
  · have h1 : tr1 = (ListServices env).2 := by
      have := Installed_snd env s
      rw [hI] at this
      exact this.symm ▸ rfl
    exact ListServices_trace_pure env e (by rw [← h1] ; exact he)
  · have h2 : tr2 = (readConf env s).2 := by
      have := check_snd env s
      rw [hC] at this
      exact this
    exact readConf_trace_pure env s e (h2 ▸ he)

/-- C1 witness: the matching world `envMatch` for `sFoo`. -/
theorem install_noop_when_matching_witness :
    (Installed envMatch sFoo).1 = true ∧ (Exists envMatch sFoo).1 = true ∧
    ((Install envMatch sFoo).1 = .ok () ∧
     (∀ e ∈ (Install envMatch sFoo).2, e.isMutation = false) ∧
     (Exists envMatch sFoo).1 = true) :=
  ⟨by decide, by decide, install_noop_when_matching envMatch sFoo (by decide) (by decide)⟩

/-- C2 counterexample: in `envUnlisted` no unit is enumerated at all, so
`Installed` is false for `sFoo`, yet `Exists` returns true, because
`Exists` only compares the still-readable live properties and never
consults the enumeration. -/
theorem exists_ignores_enumeration_cex :
    (Installed envUnlisted sFoo).1 = false ∧ (Exists envUnlisted sFoo).1 = true := by
  decide

/-- C2 amended: `Exists` returns true iff reading the live unit's
properties succeeds and the deserialized configuration structurally
equals the desired one; installation is not checked. -/
theorem exists_iff_readable_match (env : Env) (s : Service) :
    (Exists env s).1 = true ↔
      env.connReadOk = true ∧ env.unitConf s.unitName = some s.conf := by
  rw [Exists_fst_eq_true_iff]
  unfold check readConf
  by_cases h : env.connReadOk = false
  · simp [h]
  · simp only [Bool.not_eq_false] at h
    cases hu : env.unitConf s.unitName with
    | none => simp [h, hu]
    | some c =>
      simp only [h, hu, Bool.true_eq_false, if_false, Except.ok.injEq,
        decide_eq_true_eq, Option.some.injEq, eq_self_iff_true, true_and]
      exact ⟨fun hok => hok.symm, fun hok => hok.symm⟩

/-- C3 counterexample: `setConf` rejects `badConf` (validation fails
for lack of an executable reference), yet `UpdateConfig` returns the
service unchanged with no error and an empty trace — the validation
error is discarded, not observable to the caller. -/
theorem updateConfig_discards_error_cex :
    setConf sFoo badConf = .error (.validationFailed fooName) ∧
    UpdateConfig sFoo badConf = (sFoo, []) :=
  ⟨by rfl, by rfl⟩

/-- C3 amended: `UpdateConfig` re-normalizes and re-validates; it
contacts no collaborator (empty trace); on validation failure it leaves
the desired configuration and script unchanged and discards the error;
on success it stores the normalized configuration and script bytes. -/
theorem updateConfig_replaces_or_keeps (s : Service) (conf : Conf) :
    (UpdateConfig s conf).2 = [] ∧
    (∀ e, validate s.name (normalize conf (pathJoin s.dirname execStartSh)).1 = .error e →
       UpdateConfig s conf = (s, [])) ∧
    (∀ u, validate s.name (normalize conf (pathJoin s.dirname execStartSh)).1 = .ok u →
       (UpdateConfig s conf).1 =
         { s with conf := (normalize conf (pathJoin s.dirname execStartSh)).1,
                  script := (normalize conf (pathJoin s.dirname execStartSh)).2 }) := by
  refine ⟨?_, ?_, ?_⟩
  · unfold UpdateConfig setConf
    cases hv : validate s.name (normalize conf (pathJoin s.dirname execStartSh)).1 <;>
      simp [hv]
  · intro e hv
    unfold UpdateConfig setConf
    simp [hv]
  · intro u hv
    unfold UpdateConfig setConf
    simp [hv]

/-- C3 witness: a valid update replaces the configuration; an invalid
one is a silent no-op. -/
theorem updateConfig_replaces_or_keeps_witness :
    (UpdateConfig sFoo barConf).2 = [] ∧
    (UpdateConfig sFoo barConf).1 =
      { sFoo with conf := (normalize barConf (pathJoin sFoo.dirname execStartSh)).1,
                  script := (normalize barConf (pathJoin sFoo.dirname execStartSh)).2 } ∧
    UpdateConfig sFoo badConf = (sFoo, []) :=
  ⟨(updateConfig_replaces_or_keeps sFoo barConf).1,
   (updateConfig_replaces_or_keeps sFoo barConf).2.2 () (by rfl),
   (updateConfig_replaces_or_keeps sFoo badConf).2.1 (.validationFailed fooName) (by rfl)⟩

theorem Running_trace (env : Env) (s : Service) :
    (Running env s).2 = [.connect] ∨
    (Running env s).2 = [.connect, .listUnits, .closeConn] := by
  unfold Running
  by_cases h : env.connRunOk = false
  · simp [h]
  · cases hu : env.units with
    | none => simp [h, hu]
    | some us => cases hf : us.find? (fun u => u.name == s.unitName) <;> simp [h, hu, hf]

theorem Running_trace_pure (env : Env) (s : Service) :
    ∀ e ∈ (Running env s).2, e.isMutation = false := by
  intro e he
  rcases Running_trace env s with h | h <;> rw [h] at he <;>
    fin_cases he <;> rfl

/-- C5: starting a service that is not installed fails with a not-found
error naming the service; the trace is exactly the enumeration check's
trace — no further connection is opened and no start request is made. -/
theorem start_not_installed (env : Env) (s : Service)
    (h : (Installed env s).1 = false) :
    Start env s = (.error (.notFound s.name), (Installed env s).2) ∧
    ∀ u, Effect.startUnit u ∉ (Start env s).2 := by
  rcases hI : Installed env s with ⟨b, tr⟩
  rw [hI] at h
  simp only at h
  subst h
  have hS : Start env s = (.error (.notFound s.name), tr) := by
    simp [Start, hI]
  refine ⟨by simp [hS, hI], ?_⟩
  intro u hm
  rw [hS] at hm
  simp only at hm
  have htr : tr = (ListServices env).2 := by
    have h2 := Installed_snd env s
    rw [hI] at h2
    exact h2
  rw [htr] at hm
  have := ListServices_trace_pure env _ hm
  simp [Effect.isMutation] at this

/-- C5 witness: a world whose unit listing fails, so nothing is
installed. -/
theorem start_not_installed_witness :
    (Installed envListErr sFoo).1 = false ∧
    (Start envListErr sFoo = (.error (.notFound sFoo.name), (Installed envListErr sFoo).2) ∧
     ∀ u, Effect.startUnit u ∉ (Start envListErr sFoo).2) :=
  ⟨by decide, start_not_installed envListErr sFoo (by decide)⟩

/-- C7: the documented no-op cases succeed without issuing any backend
mutation: `Start` on a running service, `Stop` on a non-running one,
and `Remove` on a non-installed one; each trace is observation-only. -/
theorem noop_cases (env : Env) (s : Service) :
    ((Installed env s).1 = true → (Running env s).1 = true →
       (Start env s).1 = .ok () ∧ ∀ e ∈ (Start env s).2, e.isMutation = false) ∧
    ((Running env s).1 = false →
       Stop env s = (.ok (), (Running env s).2) ∧
       ∀ e ∈ (Stop env s).2, e.isMutation = false) ∧
    ((Installed env s).1 = false →
       Remove env s = (.ok (), (Installed env s).2) ∧
       ∀ e ∈ (Remove env s).2, e.isMutation = false) := by
  refine ⟨?_, ?_, ?_⟩
  · intro hi hr
    rcases hI : Installed env s with ⟨b1, tr1⟩
    rcases hR : Running env s with ⟨b2, tr2⟩
    rw [hI] at hi
    rw [hR] at hr
    simp only at hi hr
    subst hi
    subst hr
    have hS : Start env s = (.ok (), tr1 ++ tr2) := by
      simp [Start, hI, hR]
    refine ⟨by rw [hS], ?_⟩
    intro e he
    rw [hS] at he
    simp only [List.mem_append] at he
    have htr1 : tr1 = (ListServices env).2 := by
      have h2 := Installed_snd env s
      rw [hI] at h2
      exact h2
    have htr2 : tr2 = (Running env s).2 := by rw [hR]
    rcases he with he | he
    · exact ListServices_trace_pure env e (htr1 ▸ he)
    · exact Running_trace_pure env s e (htr2 ▸ he)
  · intro hr
    rcases hR : Running env s with ⟨b2, tr2⟩
    rw [hR] at hr
    simp only at hr
    subst hr
    have hS : Stop env s = (.ok (), tr2) := by
      simp [Stop, hR]
    refine ⟨by simp [hS, hR], ?_⟩
    intro e he
    rw [hS] at he
    simp only at he
    have htr2 : tr2 = (Running env s).2 := by rw [hR]
    exact Running_trace_pure env s e (htr2 ▸ he)
  · intro hi
    rcases hI : Installed env s with ⟨b1, tr1⟩
    rw [hI] at hi
    simp only at hi
    subst hi
    have hS : Remove env s = (.ok (), tr1) := by
      simp [Remove, hI]
    refine ⟨by simp [hS, hI], ?_⟩
    intro e he
    rw [hS] at he
    simp only at he
    have htr1 : tr1 = (ListServices env).2 := by
      have h2 := Installed_snd env s
      rw [hI] at h2
      exact h2
    exact ListServices_trace_pure env e (htr1 ▸ he)

/-- C7 witness: `Start` on the active world, `Stop` on the inactive
world, `Remove` on the world with no listing. -/
theorem noop_cases_witness :
    ((Start envMatch sFoo).1 = .ok () ∧
     (∀ e ∈ (Start envMatch sFoo).2, e.isMutation = false)) ∧
    (Stop envStartFails sFoo = (.ok (), (Running envStartFails sFoo).2) ∧
     (∀ e ∈ (Stop envStartFails sFoo).2, e.isMutation = false)) ∧
    (Remove envListErr sFoo = (.ok (), (Installed envListErr sFoo).2) ∧
     (∀ e ∈ (Remove envListErr sFoo).2, e.isMutation = false)) :=
  ⟨(noop_cases envMatch sFoo).1 (by decide) (by decide),
   (noop_cases envStartFails sFoo).2.1 (by decide),
   (noop_cases envListErr sFoo).2.2 (by decide)⟩

/-- C10: the boolean observations never surface backend failures — a
failed connection, unit listing, or property read makes `Installed`,
`Running` and `Exists` return false rather than an error. -/
theorem observations_swallow_failures (env : Env) (s : Service) :
    (env.connListOk = false → (Installed env s).1 = false) ∧
    (env.units = none → (Installed env s).1 = false) ∧
    (env.connRunOk = false → (Running env s).1 = false) ∧
    (env.units = none → (Running env s).1 = false) ∧
    (env.connReadOk = false → (Exists env s).1 = false) ∧
    (env.unitConf s.unitName = none → (Exists env s).1 = false) := by
  refine ⟨?_, ?_, ?_, ?_, ?_, ?_⟩
  · intro h
    simp [Installed, ListServices, h]
  · intro h
    by_cases hc : env.connListOk = false <;> simp [Installed, ListServices, h, hc]
  · intro h
    simp [Running, h]
  · intro h
    by_cases hc : env.connRunOk = false <;> simp [Running, h, hc]
  · intro h
    simp [Exists, check, readConf, h]
  · intro h
    by_cases hc : env.connReadOk = false <;> simp [Exists, check, readConf, h, hc]

/-- C10 witness: the dead-backend world and the failed-listing world. -/
theorem observations_swallow_failures_witness :
    (Installed envDead sFoo).1 = false ∧ (Running envDead sFoo).1 = false ∧
    (Exists envDead sFoo).1 = false ∧ (Installed envListErr sFoo).1 = false ∧
    (Running envListErr sFoo).1 = false ∧ (Exists envListErr sFoo).1 = false :=
  ⟨(observations_swallow_failures envDead sFoo).1 (by rfl),
   (observations_swallow_failures envDead sFoo).2.2.1 (by rfl),
   (observations_swallow_failures envDead sFoo).2.2.2.2.1 (by rfl),
   (observations_swallow_failures envListErr sFoo).2.1 (by rfl),
   (observations_swallow_failures envListErr sFoo).2.2.2.1 (by rfl),
   (observations_swallow_failures envListErr sFoo).2.2.2.2.2 (by rfl)⟩

theorem not_write_of_pure (e : Effect) (h : e.isMutation = false) :
    e.isInstallWrite = false := by
  cases e <;> first | rfl | simp [Effect.isMutation] at h

theorem not_teardown_of_pure (e : Effect) (h : e.isMutation = false) :
    e.isTeardown = false := by
  cases e <;> first | rfl | simp [Effect.isMutation] at h

theorem Installed_trace_pure (env : Env) (s : Service) :
    ∀ e ∈ (Installed env s).2, e.isMutation = false := by
  intro e he
  rw [Installed_snd] at he
  exact ListServices_trace_pure env e he

theorem Stop_snd (env : Env) (s : Service) :
    (Stop env s).2 = (Running env s).2 ∨
    (Stop env s).2 = (Running env s).2 ++ [.connect] ∨
    (Stop env s).2 = (Running env s).2 ++ [.connect, .stopUnit s.unitName, .closeConn] := by
  rcases hR : Running env s with ⟨b, tr⟩
  cases b
  · left
    simp [Stop, hR]
  · by_cases hc : env.connStopOk = false
    · right; left
      simp [Stop, hR, hc]
    · right; right
      cases hu : env.stopUnit s.unitName <;> simp [Stop, hR, hc, hu]

theorem Stop_trace_no_write (env : Env) (s : Service) :
    ∀ e ∈ (Stop env s).2, e.isInstallWrite = false := by
  intro e he
  rcases Stop_snd env s with h | h | h <;> rw [h] at he
  · exact not_write_of_pure e (Running_trace_pure env s e he)
  · rcases List.mem_append.mp he with he | he
    · exact not_write_of_pure e (Running_trace_pure env s e he)
    · fin_cases he <;> rfl
  · rcases List.mem_append.mp he with he | he
    · exact not_write_of_pure e (Running_trace_pure env s e he)
    · fin_cases he <;> rfl

theorem Remove_snd (env : Env) (s : Service) :
    (Remove env s).2 = (Installed env s).2 ∨
    (Remove env s).2 = (Installed env s).2 ++ [.connect] ∨
    (Remove env s).2 = (Installed env s).2 ++
      [.connect, .disableUnitFiles [s.unitName], .closeConn] ∨
    (Remove env s).2 = (Installed env s).2 ++
      [.connect, .disableUnitFiles [s.unitName], .removeAll s.dirname, .closeConn] := by
  rcases hI : Installed env s with ⟨b, tr⟩
  cases b
  · left
    simp [Remove, hI]
  · by_cases h1 : env.connDisableOk = false
    · right; left
      simp [Remove, hI, h1]
    · by_cases h2 : env.disableOk = false
      · right; right; left
        simp [Remove, hI, h1, h2]
      · right; right; right
        by_cases h3 : env.removeAllOk = false <;> simp [Remove, hI, h1, h2, h3]

theorem Remove_trace_no_write (env : Env) (s : Service) :
    ∀ e ∈ (Remove env s).2, e.isInstallWrite = false := by
  intro e he
  rcases Remove_snd env s with h | h | h | h <;> rw [h] at he
  · exact not_write_of_pure e (Installed_trace_pure env s e he)
  · rcases List.mem_append.mp he with he | he
    · exact not_write_of_pure e (Installed_trace_pure env s e he)
    · fin_cases he <;> rfl
  · rcases List.mem_append.mp he with he | he
    · exact not_write_of_pure e (Installed_trace_pure env s e he)
    · fin_cases he <;> rfl
  · rcases List.mem_append.mp he with he | he
    · exact not_write_of_pure e (Installed_trace_pure env s e he)
    · fin_cases he <;> rfl

theorem StopAndRemove_snd (env : Env) (s : Service) :
    (StopAndRemove env s).2 = (Stop env s).2 ∨
    (StopAndRemove env s).2 = (Stop env s).2 ++ (Remove env s).2 := by
  unfold StopAndRemove
  rcases hS : Stop env s with ⟨r, tr⟩
  cases r
  · left
    simp [hS]
  · rcases hR : Remove env s with ⟨r2, tr2⟩
    right
    simp [hS, hR]

theorem StopAndRemove_trace_no_write (env : Env) (s : Service) :
    ∀ e ∈ (StopAndRemove env s).2, e.isInstallWrite = false := by
  intro e he
  rcases StopAndRemove_snd env s with h | h <;> rw [h] at he
  · exact Stop_trace_no_write env s e he
  · rcases List.mem_append.mp he with he | he
    · exact Stop_trace_no_write env s e he
    · exact Remove_trace_no_write env s e he

theorem writeConf_snd (env : Env) (s : Service) :
    (writeConf env s).2 = [.mkdirAll s.dirname] ∨
    (writeConf env s).2 = [.mkdirAll s.dirname, .createFile s.conf.execStart] ∨
    (writeConf env s).2 = [.mkdirAll s.dirname, .createFile s.conf.execStart,
      .createFile (pathJoin s.dirname s.confName)] ∨
    (writeConf env s).2 = [.mkdirAll s.dirname,
      .createFile (pathJoin s.dirname s.confName)] := by
  unfold writeConf
  by_cases h1 : env.mkdirOk = false
  · left
    simp [h1]
  · cases hs : s.script with
    | some b =>
      by_cases h2 : env.createFileOk s.conf.execStart = false
      · right; left
        simp [h1, hs, h2]
      · right; right; left
        by_cases h3 : env.createFileOk (pathJoin s.dirname s.confName) = false <;>
          simp [h1, hs, h2, h3]
    | none =>
      right; right; right
      by_cases h2 : env.createFileOk (pathJoin s.dirname s.confName) = false <;>
        simp [h1, hs, h2]

theorem writeConf_trace_no_teardown (env : Env) (s : Service) :
    ∀ e ∈ (writeConf env s).2, e.isTeardown = false := by
  intro e he
  rcases writeConf_snd env s with h | h | h | h <;> rw [h] at he <;>
    fin_cases he <;> rfl

theorem installFinish_snd (env : Env) (s : Service) :
    (installFinish env s).2 = (writeConf env s).2 ∨
    (installFinish env s).2 = (writeConf env s).2 ++ [.connect] ∨
    ∃ f, (installFinish env s).2 =
      (writeConf env s).2 ++ [.connect, .enableUnitFiles [f], .closeConn] := by
  unfold installFinish
  rcases hW : writeConf env s with ⟨r, tr⟩
  cases r with
  | error e =>
    left
    simp [hW]
  | ok f =>
    by_cases h1 : env.connEnableOk = false
    · right; left
      simp [hW, h1]
    · right; right
      refine ⟨f, ?_⟩
      by_cases h2 : env.enableOk = false <;> simp [hW, h1, h2]

theorem installFinish_trace_no_teardown (env : Env) (s : Service) :
    ∀ e ∈ (installFinish env s).2, e.isTeardown = false := by
  intro e he
  rcases installFinish_snd env s with h | h | ⟨f, h⟩ <;> rw [h] at he
  · exact writeConf_trace_no_teardown env s e he
  · rcases List.mem_append.mp he with he | he
    · exact writeConf_trace_no_teardown env s e he
    · fin_cases he <;> rfl
  · rcases List.mem_append.mp he with he | he
    · exact writeConf_trace_no_teardown env s e he
    · fin_cases he <;> rfl

/-- C4: when the service is installed but the live configuration does
not match the desired one, every teardown of the old unit (stop,
disable, remove) strictly precedes every write of the new one (mkdir,
file write, enable) in `Install`'s trace, and a failing
`StopAndRemove` aborts the install: its error is surfaced (annotated)
and no write happens at all. -/
theorem install_supersedes_old_unit (env : Env) (s : Service)
    (hinst : (Installed env s).1 = true)
    (hchk : (check env s).1 = .ok false) :
    (∃ pre post, (Install env s).2 = pre ++ post ∧
       (∀ e ∈ pre, e.isInstallWrite = false) ∧
       (∀ e ∈ post, e.isTeardown = false)) ∧
    (∀ e2, (StopAndRemove env s).1 = .error e2 →
       (Install env s).1 = .error (.annotatedRemoveOld e2) ∧
       ∀ ef ∈ (Install env s).2, ef.isInstallWrite = false) := by
  rcases hI : Installed env s with ⟨b1, tr1⟩
  rcases hC : check env s with ⟨r2, tr2⟩
  rw [hI] at hinst
  rw [hC] at hchk
  simp only at hinst hchk
  subst hinst
  subst hchk
  have htr1 : ∀ e ∈ tr1, e.isInstallWrite = false := by
    intro e he
    have h2 := Installed_trace_pure env s
    rw [hI] at h2
    exact not_write_of_pure e (h2 e he)
  have htr2 : ∀ e ∈ tr2, e.isInstallWrite = false := by
    intro e he
    have h2 : (check env s).2 = (readConf env s).2 := check_snd env s
    rw [hC] at h2
    exact not_write_of_pure e (readConf_trace_pure env s e (h2 ▸ he))
  rcases hS : StopAndRemove env s with ⟨r3, tr3⟩
  have htr3 : ∀ e ∈ tr3, e.isInstallWrite = false := by
    intro e he
    have h2 := StopAndRemove_trace_no_write env s
    rw [hS] at h2
    exact h2 e he
  cases r3 with
  | error e3 =>
    have hfull : Install env s = (.error (.annotatedRemoveOld e3), tr1 ++ tr2 ++ tr3) := by
      simp [Install, hI, hC, hS]
    constructor
    · refine ⟨tr1 ++ tr2 ++ tr3, [], by simp [hfull], ?_, by simp⟩
      intro e he
      rcases List.mem_append.mp he with he | he
      · rcases List.mem_append.mp he with he | he
        · exact htr1 e he
        · exact htr2 e he
      · exact htr3 e he
    · intro e2 he2
      have he3 : e3 = e2 := by simpa using he2
      subst he3
      refine ⟨by simp [hfull], ?_⟩
      intro ef hef
      rw [hfull] at hef
      simp only [List.mem_append] at hef
      rcases hef with (hef | hef) | hef
      · exact htr1 ef hef
      · exact htr2 ef hef
      · exact htr3 ef hef
  | ok u =>
    rcases hF : installFinish env s with ⟨r4, tr4⟩
    have hfull : Install env s = (r4, tr1 ++ tr2 ++ tr3 ++ tr4) := by
      simp [Install, hI, hC, hS, hF]
    constructor
    · refine ⟨tr1 ++ tr2 ++ tr3, tr4, by rw [hfull], ?_, ?_⟩
      · intro e he
        rcases List.mem_append.mp he with he | he
        · rcases List.mem_append.mp he with he | he
          · exact htr1 e he
          · exact htr2 e he
        · exact htr3 e he
      · intro e he
        have h2 := installFinish_trace_no_teardown env s
        rw [hF] at h2
        exact h2 e he
    · intro e2 he2
      simp at he2

/-- C4 witness: the mismatching world where everything succeeds, and the
world where disabling the old unit fails so the install aborts. -/
theorem install_supersedes_old_unit_witness :
    (Installed envMismatch sFoo).1 = true ∧
    (check envMismatch sFoo).1 = .ok false ∧
    (∃ pre post, (Install envMismatch sFoo).2 = pre ++ post ∧
       (∀ e ∈ pre, e.isInstallWrite = false) ∧
       (∀ e ∈ post, e.isTeardown = false)) ∧
    ((Install envDisableFails sFoo).1 = .error (.annotatedRemoveOld .disableFailed) ∧
     ∀ ef ∈ (Install envDisableFails sFoo).2, ef.isInstallWrite = false) :=
  ⟨by decide, by rfl,
   (install_supersedes_old_unit envMismatch sFoo (by decide) (by rfl)).1,
   (install_supersedes_old_unit envDisableFails sFoo (by decide) (by rfl)).2
     .disableFailed (by rfl)⟩

/-- C6: when `Start` or `Stop` actually issues its backend request, the
call's result is success iff the value delivered on the completion
channel is `"done"`; any other completion value is an explicit failure
naming the service, and a connection or request error is also a
failure. -/
theorem start_stop_completion (env : Env) (s : Service) :
    ((Installed env s).1 = true → (Running env s).1 = false →
      (env.connStartOk = false → (Start env s).1 = .error .connFailed) ∧
      (env.connStartOk = true → env.startUnit s.unitName = none →
         (Start env s).1 = .error .startRequestFailed) ∧
      (∀ st, env.connStartOk = true → env.startUnit s.unitName = some st →
         ((Start env s).1 = .ok () ↔ st = doneStr) ∧
         (st ≠ doneStr → (Start env s).1 = .error (.startFailed s.name)))) ∧
    ((Running env s).1 = true →
      (env.connStopOk = false → (Stop env s).1 = .error .connFailed) ∧
      (env.connStopOk = true → env.stopUnit s.unitName = none →
         (Stop env s).1 = .error .stopRequestFailed) ∧
      (∀ st, env.connStopOk = true → env.stopUnit s.unitName = some st →
         ((Stop env s).1 = .ok () ↔ st = doneStr) ∧
         (st ≠ doneStr → (Stop env s).1 = .error (.stopFailed s.name)))) := by
  constructor
  · intro hi hr
    rcases hI : Installed env s with ⟨b1, tr1⟩
    rcases hR : Running env s with ⟨b2, tr2⟩
    rw [hI] at hi
    rw [hR] at hr
    simp only at hi hr
    subst hi
    subst hr
    refine ⟨?_, ?_, ?_⟩
    · intro hc
      simp [Start, hI, hR, hc]
    · intro hc hu
      simp [Start, hI, hR, hc, hu]
    · intro st hc hu
      constructor
      · by_cases hd : st = doneStr <;> simp [Start, hI, hR, hc, hu, hd]
      · intro hd
        simp [Start, hI, hR, hc, hu, hd]
  · intro hr
    rcases hR : Running env s with ⟨b2, tr2⟩
    rw [hR] at hr
    simp only at hr
    subst hr
    refine ⟨?_, ?_, ?_⟩
    · intro hc
      simp [Stop, hR, hc]
    · intro hc hu
      simp [Stop, hR, hc, hu]
    · intro st hc hu
      constructor
      · by_cases hd : st = doneStr <;> simp [Stop, hR, hc, hu, hd]
      · intro hd
        simp [Stop, hR, hc, hu, hd]

/-- C6 witness: a non-`"done"` start completion fails naming `"foo"`, a
`"done"` one succeeds, and a non-`"done"` stop completion fails naming
`"foo"`. -/
theorem start_stop_completion_witness :
    (Start envStartFails sFoo).1 = .error (.startFailed sFoo.name) ∧
    (Start envStartDone sFoo).1 = .ok () ∧
    (Stop envStopFails sFoo).1 = .error (.stopFailed sFoo.name) :=
  ⟨(((start_stop_completion envStartFails sFoo).1 (by decide) (by decide)).2.2
      ['f', 'a', 'i', 'l', 'e', 'd'] (by rfl) (by rfl)).2 (by decide),
   (((start_stop_completion envStartDone sFoo).1 (by decide) (by decide)).2.2
      doneStr (by rfl) (by rfl)).1.mpr rfl,
   (((start_stop_completion envStopFails sFoo).2 (by decide)).2.2
      ['f', 'a', 'i', 'l', 'e', 'd'] (by rfl) (by rfl)).2 (by decide)⟩

theorem mem_left_of_eq_append_cons {α : Type} {a b : α} (l1 : List α) :
    ∀ (p q l2 : List α), b ∉ p → a ∈ p → p ++ q = l1 ++ b :: l2 → a ∈ l1 := by
  induction l1 with
  | nil =>
    intro p q l2 hb ha heq
    cases p with
    | nil => exact absurd ha (List.not_mem_nil a)
    | cons x p2 =>
      simp only [List.cons_append, List.nil_append, List.cons.injEq] at heq
      obtain ⟨rfl, -⟩ := heq
      exact absurd (List.mem_cons_self x p2) hb
  | cons y l1x ih =>
    intro p q l2 hb ha heq
    cases p with
    | nil => exact absurd ha (List.not_mem_nil a)
    | cons x p2 =>
      simp only [List.cons_append, List.cons.injEq] at heq
      obtain ⟨rfl, heq2⟩ := heq
      rcases List.mem_cons.mp ha with rfl | ha2
      · exact List.mem_cons_self a l1x
      · exact List.mem_cons_of_mem x
          (ih p2 q l2 (fun hh => hb (List.mem_cons_of_mem x hh)) ha2 heq2)

theorem removeAll_not_mem_of_pure (tr : List Effect)
    (h : ∀ e ∈ tr, Effect.isMutation e = false) (d : GoStr) :
    Effect.removeAll d ∉ tr := by
  intro hm
  have h2 := h _ hm
  simp [Effect.isMutation] at h2

/-- C8: for an installed service, `Remove` disables the unit file with
the backend strictly before any deletion of the service directory, and
a failure of the disable step aborts the removal: the error is
surfaced and no directory deletion happens. -/
theorem remove_disable_before_delete (env : Env) (s : Service)
    (hinst : (Installed env s).1 = true) :
    (∀ l1 l2 d, (Remove env s).2 = l1 ++ Effect.removeAll d :: l2 →
       Effect.disableUnitFiles [s.unitName] ∈ l1) ∧
    (env.connDisableOk = true → env.disableOk = false →
       (Remove env s).1 = .error .disableFailed ∧
       ∀ d, Effect.removeAll d ∉ (Remove env s).2) := by
  rcases hI : Installed env s with ⟨b1, tr1⟩
  rw [hI] at hinst
  simp only at hinst
  subst hinst
  have htr1 : ∀ e ∈ tr1, Effect.isMutation e = false := by
    have h2 := Installed_trace_pure env s
    rw [hI] at h2
    exact h2
  constructor
  · intro l1 l2 d heq
    by_cases h1 : env.connDisableOk = false
    · have hsnd : (Remove env s).2 = tr1 ++ [.connect] := by
        simp [Remove, hI, h1]
      rw [hsnd] at heq
      exfalso
      have hmem : Effect.removeAll d ∈ tr1 ++ [Effect.connect] := by
        rw [heq]
        exact List.mem_append_right l1 (List.mem_cons_self _ l2)
      rcases List.mem_append.mp hmem with hm | hm
      · exact removeAll_not_mem_of_pure tr1 htr1 d hm
      · simp at hm
    · by_cases h2 : env.disableOk = false
      · have hsnd : (Remove env s).2 =
            tr1 ++ [.connect, .disableUnitFiles [s.unitName], .closeConn] := by
          simp [Remove, hI, h1, h2]
        rw [hsnd] at heq
        exfalso
        have hmem : Effect.removeAll d ∈
            tr1 ++ [Effect.connect, Effect.disableUnitFiles [s.unitName], Effect.closeConn] := by
          rw [heq]
          exact List.mem_append_right l1 (List.mem_cons_self _ l2)
        rcases List.mem_append.mp hmem with hm | hm
        · exact removeAll_not_mem_of_pure tr1 htr1 d hm
        · simp at hm
      · have hsnd : (Remove env s).2 =
            (tr1 ++ [.connect, .disableUnitFiles [s.unitName]]) ++
            [.removeAll s.dirname, .closeConn] := by
          by_cases h3 : env.removeAllOk = false <;> simp [Remove, hI, h1, h2, h3]
        rw [hsnd] at heq
        refine mem_left_of_eq_append_cons l1
          (tr1 ++ [.connect, .disableUnitFiles [s.unitName]])
          [.removeAll s.dirname, .closeConn] l2 ?_ ?_ heq
        · intro hm
          rcases List.mem_append.mp hm with hm | hm
          · exact removeAll_not_mem_of_pure tr1 htr1 d hm
          · simp at hm
        · exact List.mem_append_right tr1 (by simp)
  · intro h1 h2
    have hfull : Remove env s =
        (.error .disableFailed,
         tr1 ++ [.connect, .disableUnitFiles [s.unitName], .closeConn]) := by
      simp [Remove, hI, h1, h2]
    refine ⟨by simp [hfull], ?_⟩
    intro d hm
    rw [hfull] at hm
    simp only [List.mem_append] at hm
    rcases hm with hm | hm
    · exact removeAll_not_mem_of_pure tr1 htr1 d hm
    · simp at hm

/-- C8 witness: the world where disabling fails (removal aborted, no
deletion), applied for the installed service `sFoo`. -/
theorem remove_disable_before_delete_witness :
    (Installed envDisableFails sFoo).1 = true ∧
    ((Remove envDisableFails sFoo).1 = .error .disableFailed ∧
     ∀ d, Effect.removeAll d ∉ (Remove envDisableFails sFoo).2) :=
  ⟨by decide,
   (remove_disable_before_delete envDisableFails sFoo (by decide)).2 (by rfl) (by rfl)⟩

theorem hasSuffix_iff (s suf : GoStr) :
    hasSuffix s suf = true ↔ ∃ p, s = p ++ suf := by
  unfold hasSuffix
  simp only [Bool.and_eq_true, decide_eq_true_eq, beq_iff_eq]
  constructor
  · rintro ⟨hlen, hdrop⟩
    refine ⟨s.take (s.length - suf.length), ?_⟩
    have h2 := List.take_append_drop (s.length - suf.length) s
    rw [hdrop] at h2
    exact h2.symm
  · rintro ⟨p, rfl⟩
    refine ⟨by simp, ?_⟩
    have h2 : (p ++ suf).length - suf.length = p.length := by simp
    rw [h2, List.drop_left]

theorem trimSuffix_append (p suf : GoStr) : trimSuffix (p ++ suf) suf = p := by
  unfold trimSuffix
  rw [if_pos ((hasSuffix_iff (p ++ suf) suf).mpr ⟨p, rfl⟩)]
  have h2 : (p ++ suf).length - suf.length = p.length := by simp
  rw [h2, List.take_left]

theorem suffix_filter_eq (s suf n : GoStr) :
    ((if hasSuffix s suf then some (trimSuffix s suf) else none) = some n) ↔
    s = n ++ suf := by
  by_cases h : hasSuffix s suf = true
  · rw [if_pos h]
    obtain ⟨p, rfl⟩ := (hasSuffix_iff s suf).mp h
    rw [trimSuffix_append]
    simp only [Option.some.injEq]
    constructor
    · rintro rfl
      rfl
    · intro he
      exact List.append_cancel_right he
  · rw [if_neg h]
    constructor
    · intro hn
      simp at hn
    · rintro rfl
      exact absurd ((hasSuffix_iff (n ++ suf) suf).mpr ⟨n, rfl⟩) h

/-- C9: when the backend lists units `us`, a name is returned by
`ListServices` exactly when some unit of `us` is named that name
followed by the `".service"` suffix; units whose names do not carry the
suffix contribute nothing. -/
theorem listServices_exactly_suffix (env : Env) (us : List UnitStatus)
    (hc : env.connListOk = true) (hu : env.units = some us) (n : GoStr) :
    (∃ names, (ListServices env).1 = .ok names ∧ n ∈ names) ↔
    ∃ u ∈ us, u.name = n ++ serviceSuffix := by
  have hres : (ListServices env).1 = .ok (us.filterMap fun u =>
      if hasSuffix u.name serviceSuffix then some (trimSuffix u.name serviceSuffix)
      else none) := by
    simp [ListServices, hc, hu]
  constructor
  · rintro ⟨names, hn, hmem⟩
    rw [hres] at hn
    simp only [Except.ok.injEq] at hn
    subst hn
    rw [List.mem_filterMap] at hmem
    obtain ⟨u, hu2, hf⟩ := hmem
    exact ⟨u, hu2, (suffix_filter_eq u.name serviceSuffix n).mp hf⟩
  · rintro ⟨u, hu2, hname⟩
    refine ⟨_, hres, ?_⟩
    rw [List.mem_filterMap]
    exact ⟨u, hu2, (suffix_filter_eq u.name serviceSuffix n).mpr hname⟩

/-- C9 witness: on the mixed list, `"foo"` (from `"foo.service"`) is
returned and `"bar"` (only present as `"bar.socket"`) is not. -/
theorem listServices_exactly_suffix_witness :
    envMixed.connListOk = true ∧ envMixed.units = some mixedUnits ∧
    (∃ names, (ListServices envMixed).1 = .ok names ∧ fooName ∈ names) ∧
    ¬(∃ names, (ListServices envMixed).1 = .ok names ∧ ['b', 'a', 'r'] ∈ names) :=
  ⟨rfl, rfl,
   (listServices_exactly_suffix envMixed mixedUnits rfl rfl fooName).mpr (by decide),
   fun hcon => absurd
     ((listServices_exactly_suffix envMixed mixedUnits rfl rfl ['b', 'a', 'r']).mp hcon)
     (by decide)⟩

end Systemd
